import Mathlib

/-!
Shallow embedding of the bybit-inverse-notification Go program
(`websocket.go`, `account.go`) and proofs about it.

Numeric conventions: Go `uint32` arithmetic is modelled as `Nat` with explicit
reduction `% 2^32`; Go `int64` values (timestamps, account ids) as `Int`;
Go `float64` monetary quantities as `ℚ` (the program only ever parses plain
decimal numerals, compares and sums them, so exact rationals model the
control flow faithfully).  Byte strings are `List Nat` of values `< 256`.
-/

set_option maxRecDepth 200000

namespace BybitNotif

/-- Reduce a natural number to a 32-bit word, Go `uint32` overflow semantics. -/
def w32 (n : Nat) : Nat := n % 4294967296

/-- Rotate a 32-bit word right by `k` bits (0 < k < 32). -/
def rotr32 (x k : Nat) : Nat := w32 ((x >>> k) ||| (x <<< (32 - k)))

/-- Bitwise complement of a 32-bit word. -/
def not32 (x : Nat) : Nat := x ^^^ 4294967295

/-- SHA-256 round constants (FIPS 180-4), as used by Go `crypto/sha256`. -/
def sha256K : List Nat :=
  [1116352408, 1899447441, 3049323471, 3921009573, 961987163, 1508970993,
   2453635748, 2870763221, 3624381080, 310598401, 607225278, 1426881987,
   1925078388, 2162078206, 2614888103, 3248222580, 3835390401, 4022224774,
   264347078, 604807628, 770255983, 1249150122, 1555081692, 1996064986,
   2554220882, 2821834349, 2952996808, 3210313671, 3336571891, 3584528711,
   113926993, 338241895, 666307205, 773529912, 1294757372, 1396182291,
   1695183700, 1986661051, 2177026350, 2456956037, 2730485921, 2820302411,
   3259730800, 3345764771, 3516065817, 3600352804, 4094571909, 275423344,
   430227734, 506948616, 659060556, 883997877, 958139571, 1322822218,
   1537002063, 1747873779, 1955562222, 2024104815, 2227730452, 2361852424,
   2428436474, 2756734187, 3204031479, 3329325298]

/-- SHA-256 initial hash state (FIPS 180-4). -/
def sha256H0 : List Nat :=
  [1779033703, 3144134277, 1013904242, 2773480762,
   1359893119, 2600822924, 528734635, 1541459225]

/-- SHA-256 message padding: append `0x80`, zero bytes to 56 mod 64, then the
bit length as a 64-bit big-endian integer. -/
def sha256Pad (msg : List Nat) : List Nat :=
  let len := msg.length
  let zeros := (119 - len % 64) % 64
  msg ++ [128] ++ List.replicate zeros 0 ++
    (List.range 8).map (fun i => ((len * 8) >>> ((7 - i) * 8)) &&& 255)

/-- One step of splitting a byte list into 64-byte blocks. -/
def chunkStep (acc : List (List Nat) × List Nat) (b : Nat) : List (List Nat) × List Nat :=
  let cur := acc.2 ++ [b]
  if cur.length = 64 then (acc.1 ++ [cur], []) else (acc.1, cur)

/-- Split a (padded, 64-divisible) byte list into 64-byte blocks. -/
def chunks64 (l : List Nat) : List (List Nat) := (l.foldl chunkStep ([], [])).1

/-- Group bytes into big-endian 32-bit words. -/
def bytesToWords : List Nat → List Nat
  | a :: b :: c :: d :: rest => (((a * 256 + b) * 256 + c) * 256 + d) :: bytesToWords rest
  | _ => []

/-- One message-schedule extension step: append `w[i]` computed from
`w[i-2]`, `w[i-7]`, `w[i-15]`, `w[i-16]`. -/
def scheduleStep (w : List Nat) (_ : Nat) : List Nat :=
  let n := w.length
  let g := fun i => w.getD (n - i) 0
  let x := g 15
  let y := g 2
  let s0 := rotr32 x 7 ^^^ rotr32 x 18 ^^^ (x >>> 3)
  let s1 := rotr32 y 17 ^^^ rotr32 y 19 ^^^ (y >>> 10)
  w ++ [w32 (g 16 + s0 + g 7 + s1)]

/-- Extend 16 schedule words to 64. -/
def sha256Schedule (ws : List Nat) : List Nat := (List.range 48).foldl scheduleStep ws

/-- One SHA-256 compression round on the 8-word working state. -/
def sha256Round (st : List Nat) (kw : Nat) : List Nat :=
  match st with
  | [a, b, c, d, e, f, g, h] =>
    let s1 := rotr32 e 6 ^^^ rotr32 e 11 ^^^ rotr32 e 25
    let ch := (e &&& f) ^^^ (not32 e &&& g)
    let t1 := w32 (h + s1 + ch + kw)
    let s0 := rotr32 a 2 ^^^ rotr32 a 13 ^^^ rotr32 a 22
    let mj := (a &&& b) ^^^ (a &&& c) ^^^ (b &&& c)
    let t2 := w32 (s0 + mj)
    [w32 (t1 + t2), a, b, c, w32 (d + t1), e, f, g]
  | _ => st

/-- Compress one 64-byte block into the hash state. -/
def sha256Block (st : List Nat) (block : List Nat) : List Nat :=
  let ws := sha256Schedule (bytesToWords block)
  let kws := List.zipWith (fun k w => w32 (k + w)) sha256K ws
  let fin := kws.foldl sha256Round st
  List.zipWith (fun x y => w32 (x + y)) st fin

/-- SHA-256 digest of a byte list, as eight 32-bit words. -/
def sha256Words (msg : List Nat) : List Nat :=
  (chunks64 (sha256Pad msg)).foldl sha256Block sha256H0

/-- Big-endian bytes of a 32-bit word. -/
def wordBytesBE (n : Nat) : List Nat :=
  [(n >>> 24) &&& 255, (n >>> 16) &&& 255, (n >>> 8) &&& 255, n &&& 255]

/-- SHA-256 digest of a byte list, as 32 bytes. -/
def sha256 (msg : List Nat) : List Nat := ((sha256Words msg).map wordBytesBE).flatten

/-- Lowercase hexadecimal digit character. -/
def hexDigit (n : Nat) : Char := if n < 10 then Char.ofNat (48 + n) else Char.ofNat (87 + n)

/-- Two lowercase hex characters of one byte, as produced by Go `encoding/hex`. -/
def byteHex (b : Nat) : String := String.mk [hexDigit ((b >>> 4) &&& 15), hexDigit (b &&& 15)]

/-- Lowercase hex encoding of a byte list (Go `hex.EncodeToString`). -/
def bytesToHex (l : List Nat) : String := String.join (l.map byteHex)

/-- HMAC-SHA256 (RFC 2104, block size 64), exactly the algorithm of Go
`crypto/hmac` instantiated with `crypto/sha256`. -/
def hmacSha256 (key msg : List Nat) : List Nat :=
  let k1 := if 64 < key.length then sha256 key else key
  let k2 := k1 ++ List.replicate (64 - k1.length) 0
  let ip := k2.map (fun b => b ^^^ 54)
  let op := k2.map (fun b => b ^^^ 92)
  sha256 (op ++ sha256 (ip ++ msg))

/-- UTF-8 bytes of a string; for the ASCII strings handled by this program
(API keys, hex digests, decimal numerals, `GET/realtime`) each character is
one byte equal to its code point, matching Go `[]byte(s)`. -/
def strBytes (s : String) : List Nat := s.data.map Char.toNat

/-- Character class trimmed by `strings.TrimSpace` in `authenticate`
(`websocket.go` 642-643); the ASCII whitespace characters are modelled,
which covers the ASCII credentials the program handles. -/
def goIsSpace (c : Char) : Bool :=
  (c == ' ') || (c == '\t') || (c == '\n') || (c == '\r') ||
    (c == Char.ofNat 11) || (c == Char.ofNat 12)

/-- Go `strings.TrimSpace`: drop leading and trailing whitespace. -/
def trimSpaceGo (s : String) : String :=
  String.mk (((s.data.dropWhile goIsSpace).reverse.dropWhile goIsSpace).reverse)

/-- JSON scalar values as they appear in the outbound auth message: the
`args` array mixes a string key, a *numeric* expiry and a string signature. -/
inductive JVal where
  | jstr (s : String)
  | jnum (n : Int)
deriving DecidableEq

/-- Shape of the authentication request built in `authenticate`
(`websocket.go` 664-668). -/
structure AuthMsg where
  req_id : String
  op : String
  args : List JVal
deriving DecidableEq

/-- Lowercase hex HMAC-SHA256 of a payload string keyed by a secret string,
exactly `hex.EncodeToString(hmac.New(sha256.New, secret).Sum(payload))`
from `websocket.go` 654-658. -/
def hmacSha256Hex (secret payload : String) : String :=
  bytesToHex (hmacSha256 (strBytes secret) (strBytes payload))

/-- Embedding of `authenticate` (`websocket.go` 640-679) up to the point the
request is serialized: inputs are the raw credentials, the current wall clock
in milliseconds, and the fresh uuid; output is the message sent. -/
def authMessage (apiKeyRaw apiSecretRaw : String) (nowMs : Int) (reqId : String) : AuthMsg :=
  let apiKey := trimSpaceGo apiKeyRaw
  let apiSecret := trimSpaceGo apiSecretRaw
  let expires : Int := nowMs + 10000
  let signatureString := "GET/realtime" ++ toString expires
  let signature := hmacSha256Hex apiSecret signatureString
  { req_id := reqId, op := "auth", args := [.jstr apiKey, .jnum expires, .jstr signature] }

/-- Dynamic values of a decoded `map[string]interface{}` response field: a
JSON boolean, a string, or anything else (the Go type assertion `.(bool)`
only succeeds on the first). -/
inductive GoVal where
  | gbool (b : Bool)
  | gstr (s : String)
  | gother
deriving DecidableEq

/-- First-match field lookup in a decoded JSON object. -/
def lookupField : List (String × GoVal) → String → Option GoVal
  | [], _ => none
  | (k, v) :: rest, key => if k = key then some v else lookupField rest key

/-- Embedding of the auth-response acceptance decision of `authenticate`
(`websocket.go` 688-703): `success=false` fails, `success=true` succeeds,
everything else (missing or non-boolean `success`) falls through to the
final unexpected-response error.  Error text abbreviates the Go messages. -/
def authResponseCheck (resp : List (String × GoVal)) : Except String Unit :=
  match lookupField resp "success" with
  | some (.gbool false) => .error "autenticação falhou"
  | some (.gbool true) => .ok ()
  | _ => .error "resposta de autenticação inesperada"

/-- Decimal value of a digit list. -/
def digitsVal (cs : List Char) : Nat := cs.foldl (fun n c => n * 10 + (c.toNat - 48)) 0

/-- Check that every character is an ASCII digit. -/
def allDigits (cs : List Char) : Bool := cs.all Char.isDigit

/-- Split an optional leading sign off a numeral; returns (negative?, rest). -/
def splitSign (cs : List Char) : Bool × List Char :=
  match cs with
  | c :: rest =>
    if c = '-' then (true, rest) else if c = '+' then (false, rest) else (false, cs)
  | [] => (false, [])

/-- Model of Go `strconv.ParseInt(s, 10, 64)`: optional sign, at least one
digit, nothing else, value within the int64 range. -/
def parseInt64 (s : String) : Option Int :=
  let (neg, ds) := splitSign s.data
  if ds = [] ∨ ¬ allDigits ds then none
  else
    let v : Int := if neg then -(digitsVal ds : Int) else (digitsVal ds : Int)
    if -(2 ^ 63) ≤ v ∧ v ≤ 2 ^ 63 - 1 then some v else none

/-- Model of Go `strconv.ParseFloat(s, 64)` restricted to the plain decimal
numerals this exchange emits (optional sign, digits, optional fraction),
valued in ℚ so arithmetic and comparisons are exact. -/
def parseFloatQ (s : String) : Option ℚ :=
  let (neg, ds) := splitSign s.data
  let ip := ds.takeWhile Char.isDigit
  let rest := ds.dropWhile Char.isDigit
  let val? : Option ℚ :=
    match rest with
    | [] => if ip = [] then none else some (digitsVal ip : ℚ)
    | c :: frac =>
      if c = '.' ∧ allDigits frac ∧ (ip ≠ [] ∨ frac ≠ []) then
        some ((digitsVal ip : ℚ) + (digitsVal frac : ℚ) / ((10 : ℚ) ^ frac.length))
      else none
  val?.map (fun v => if neg then -v else v)

/-- Mirror of the Go `OrderData` struct (`websocket.go` 152-171); all string
fields default to the empty string (Go zero value) for concise literals. -/
structure OrderData where
  Category : String := ""
  OrderID : String := ""
  OrderLinkID : String := ""
  Symbol : String := ""
  Side : String := ""
  OrderType : String := ""
  OrderStatus : String := ""
  CancelType : String := ""
  RejectReason : String := ""
  Price : String := ""
  AvgPrice : String := ""
  Qty : String := ""
  CreatedTime : String := ""
  UpdatedTime : String := ""
  ReduceOnly : Bool := false
  StopOrderType : String := ""
  TriggerPrice : String := ""
  CreateType : String := ""
deriving DecidableEq

/-- The five possible fates of one order element inside
`handleOrderMessage` (`websocket.go` 846-911): silently dropped, reported
immediately as an untriggered stop (`processStopOrder`), reported
immediately as a stop cancellation (`processStopCancellation`), appended to
the 2-second order buffer, or appended to the 2-second cancel buffer. -/
inductive Disposition where
  | dropped
  | stopNotify
  | stopCancelNotify
  | toOrderBuffer
  | toCancelBuffer
deriving DecidableEq

/-- Rejection codes other than the two accepted sentinels
(`websocket.go` 863). -/
def badRejectReason (o : OrderData) : Prop :=
  o.RejectReason ≠ "" ∧ o.RejectReason ≠ "EC_NoError" ∧ o.RejectReason ≠ "EC_PerCancelRequest"

instance (o : OrderData) : Decidable (badRejectReason o) := by
  unfold badRejectReason; infer_instance

/-- Embedding of the `isLimitExecutedQuickly` computation
(`websocket.go` 893-903): a Limit order filled/partially filled whose
updated-minus-created difference parses and lies in [0, 3000] ms. -/
def isLimitExecutedQuickly (o : OrderData) : Bool :=
  (o.OrderType == "Limit" && (o.OrderStatus == "Filled" || o.OrderStatus == "PartiallyFilled")) &&
    match parseInt64 o.CreatedTime, parseInt64 o.UpdatedTime with
    | some c, some u => decide (0 ≤ u - c) && decide (u - c ≤ 3000)
    | _, _ => false

/-- Per-element routing decision of `handleOrderMessage`
(`websocket.go` 846-911), with the guards in source order. -/
def routeOrder (o : OrderData) : Disposition :=
  if o.Category ≠ "inverse" then .dropped
  else if badRejectReason o then .dropped
  else if o.OrderStatus = "Untriggered" then .stopNotify
  else if o.OrderStatus = "Deactivated" then .stopCancelNotify
  else if o.CreateType = "CreateByStopOrder" then .dropped
  else if o.OrderStatus = "New" ∨
      (o.OrderType = "Market" ∧ (o.OrderStatus = "Filled" ∨ o.OrderStatus = "PartiallyFilled")) ∨
      isLimitExecutedQuickly o then .toOrderBuffer
  else if o.OrderStatus = "Cancelled" ∨
      (o.CancelType ≠ "" ∧ o.StopOrderType ≠ "Stop" ∧ o.OrderStatus ≠ "Filled") then .toCancelBuffer
  else .dropped

/-- Guards that precede the buffer routing: inverse category, acceptable
rejection code, not an untriggered or deactivated stop. -/
def routeBase (o : OrderData) : Prop :=
  o.Category = "inverse" ∧ ¬ badRejectReason o ∧
    o.OrderStatus ≠ "Untriggered" ∧ o.OrderStatus ≠ "Deactivated"

/-- Order-buffer condition written from the claim wording (status new, or a
market fill, or a limit fill within 3000 ms of creation). -/
def specOrderBufferCond (o : OrderData) : Prop :=
  o.OrderStatus = "New" ∨
    (o.OrderType = "Market" ∧ (o.OrderStatus = "Filled" ∨ o.OrderStatus = "PartiallyFilled")) ∨
    (o.OrderType = "Limit" ∧ (o.OrderStatus = "Filled" ∨ o.OrderStatus = "PartiallyFilled") ∧
      ∃ c u, parseInt64 o.CreatedTime = some c ∧ parseInt64 o.UpdatedTime = some u ∧
        0 ≤ u - c ∧ u - c ≤ 3000)

/-- Cancel-buffer condition written from the claim wording (cancelled, or a
non-empty cancel type on a non-stop, non-filled order). -/
def specCancelBufferCond (o : OrderData) : Prop :=
  o.OrderStatus = "Cancelled" ∨
    (o.CancelType ≠ "" ∧ o.StopOrderType ≠ "Stop" ∧ o.OrderStatus ≠ "Filled")

/-- Time of the last append, given the first append time and the remaining
timed appends. -/
def lastTime {α : Type} : Nat → List (Nat × α) → Nat
  | t, [] => t
  | _, (u, _) :: rest => lastTime u rest

/-- Burst condition: appends are in order and each inter-arrival gap is
strictly under the 2000 ms debounce window. -/
def gapsOk {α : Type} : Nat → List (Nat × α) → Prop
  | _, [] => True
  | t, (u, _) :: rest => t ≤ u ∧ u < t + 2000 ∧ gapsOk u rest

/-- Sequential semantics of the per-account debounce buffer of
`addOrderToBuffer` / `addCancelToBuffer` (`websocket.go` 914-997): the
buffer holds `pending` with its `time.AfterFunc` timer due at `deadline`;
an append that arrives before the deadline stops and re-arms the timer for
2000 ms (`timer.Stop(); time.AfterFunc(2*time.Second, ...)`), otherwise the
timer has already fired, flushing `pending`, and the append recreates the
buffer.  Returns the list of (flush time, flushed contents). -/
def debounceRun {α : Type} : List α → Nat → List (Nat × α) → List (Nat × List α)
  | pending, deadline, [] => [(deadline, pending)]
  | pending, deadline, (t, x) :: rest =>
    if t < deadline then debounceRun (pending ++ [x]) (t + 2000) rest
    else (deadline, pending) :: debounceRun [x] (t + 2000) rest

/-- All flushes produced by a sequence of timed appends into an initially
absent buffer. -/
def debounceFlushes {α : Type} : List (Nat × α) → List (Nat × List α)
  | [] => []
  | (t, x) :: rest => debounceRun [x] (t + 2000) rest

/-- Effect of `processOrderBuffer` / `processCancelBuffer`
(`websocket.go` 1029-1050, 1191-1212) on the account's buffer map entry:
a present, non-empty buffer is swapped out whole and the entry deleted; an
empty buffer is left in place; an absent entry flushes nothing. -/
def flushSwap {α : Type} (entry : Option (List α)) : List α × Option (List α) :=
  match entry with
  | none => ([], none)
  | some [] => ([], some [])
  | some (x :: xs) => (x :: xs, none)

/-- Grouping key of `processOrderBuffer` (`websocket.go` 1060-1068):
`Symbol_Reduce?_Side_OrderType`. -/
def groupKey (o : OrderData) : String :=
  let rtag := if o.ReduceOnly then "Reduce" else ""
  o.Symbol ++ "_" ++ rtag ++ "_" ++ o.Side ++ "_" ++ o.OrderType

/-- Buckets of the Go `map[string][]OrderData` built in
`processOrderBuffer`: each key maps to the orders carrying it, in arrival
order.  Go map iteration order is unspecified; the model fixes
first-occurrence order, which the claims do not depend on. -/
def groupOrders (orders : List OrderData) : List (String × List OrderData) :=
  ((orders.map groupKey).dedup).map (fun k => (k, orders.filter (fun o => groupKey o == k)))

/-- Embedding of `getDisplayPrice` (`websocket.go` 1084-1095): a Market
order with a present non-zero average uses the average; a Limit order with
a present non-zero average uses it only when filled/partially filled;
otherwise the quoted price. -/
def getDisplayPrice (o : OrderData) : String :=
  if o.OrderType = "Market" ∧ o.AvgPrice ≠ "" ∧ o.AvgPrice ≠ "0" then o.AvgPrice
  else if o.OrderType = "Limit" ∧ o.AvgPrice ≠ "" ∧ o.AvgPrice ≠ "0" ∧
      (o.OrderStatus = "Filled" ∨ o.OrderStatus = "PartiallyFilled") then o.AvgPrice
  else o.Price

/-- One iteration of the min/max/total loop of `processOrderBuffer`
(`websocket.go` 1101-1127), including the source's skip-on-parse-failure
and the `i == 0` initialisation. -/
def priceStatsStep (acc : ℚ × ℚ × ℚ) (io : Nat × OrderData) : ℚ × ℚ × ℚ :=
  let (i, o) := io
  match parseFloatQ (getDisplayPrice o), parseFloatQ o.Qty with
  | some price, some qty =>
    let (minP, maxP, tot) := acc
    if i = 0 then (price, price, tot + qty)
    else ((if price < minP then price else minP),
          (if maxP < price then price else maxP), tot + qty)
  | _, _ => acc

/-- Min display price, max display price and summed quantity of a group. -/
def priceStatsGo (orders : List OrderData) : ℚ × ℚ × ℚ :=
  orders.enum.foldl priceStatsStep (0, 0, 0)

/-- The three message shapes emitted per group by `processOrderBuffer`
(`websocket.go` 1133-1150), carrying the data interpolated into the text. -/
inductive GroupMessage where
  | single (symbol reduceTag side orderType displayPrice : String) (totalQty : ℚ)
  | uniform (count : Nat) (reduceTag side orderType symbol displayPrice : String) (totalQty : ℚ)
  | priceRange (count : Nat) (reduceTag side orderType symbol : String) (minPrice maxPrice totalQty : ℚ)
deriving DecidableEq

/-- Message built for one non-empty group (`websocket.go` 1071-1150). -/
def renderGroup : List OrderData → Option GroupMessage
  | [] => none
  | first :: rest =>
    let g := first :: rest
    let (minP, maxP, totQ) := priceStatsGo g
    let rtag := if first.ReduceOnly then "Reduce " else ""
    let dp := getDisplayPrice first
    if rest = [] then some (.single first.Symbol rtag first.Side first.OrderType dp totQ)
    else if minP = maxP then
      some (.uniform g.length rtag first.Side first.OrderType first.Symbol dp totQ)
    else some (.priceRange g.length rtag first.Side first.OrderType first.Symbol minP maxP totQ)

/-- Messages of an order-buffer flush: group, then render each group. -/
def processOrderBuffer (orders : List OrderData) : List GroupMessage :=
  (groupOrders orders).filterMap (fun kv => renderGroup kv.2)

/-- Mirror of the Go `CoinBalance` struct (`websocket.go` 142-150). -/
structure CoinBalance where
  Coin : String := ""
  Equity : String := ""
  UsdValue : String := ""
  WalletBalance : String := ""
  AvailableToWithdraw : String := ""
  UnrealisedPnl : String := ""
  CumRealisedPnl : String := ""
deriving DecidableEq

/-- Mirror of the Go `WalletData` struct (`websocket.go` 97-109). -/
structure WalletData where
  AccountType : String := ""
  AccountIMRate : String := ""
  AccountMMRate : String := ""
  TotalEquity : String := ""
  TotalWalletBalance : String := ""
  TotalMarginBalance : String := ""
  TotalAvailableBalance : String := ""
  TotalPerpUPL : String := ""
  TotalInitialMargin : String := ""
  TotalMaintenanceMargin : String := ""
  Coin : List CoinBalance := []
deriving DecidableEq

/-- Mirror of the Go `PositionData` struct (`websocket.go` 126-140). -/
structure PositionData where
  Symbol : String := ""
  Side : String := ""
  Size : String := ""
  EntryPrice : String := ""
  MarkPrice : String := ""
  PositionValue : String := ""
  PositionIM : String := ""
  PositionMM : String := ""
  UnrealisedPnl : String := ""
  StopLoss : String := ""
  TakeProfit : String := ""
  Category : String := ""
  PositionStatus : String := ""
deriving DecidableEq

/-- Mirror of the Go `ExecutionData` struct (`websocket.go` 111-124). -/
structure ExecutionData where
  Category : String := ""
  Symbol : String := ""
  ExecType : String := ""
  ExecPrice : String := ""
  ExecQty : String := ""
  ExecValue : String := ""
  Side : String := ""
  OrderID : String := ""
  OrderLinkID : String := ""
  OrderType : String := ""
  CreateType : String := ""
  MarkPrice : String := ""
deriving DecidableEq

/-- First coin balance whose `Coin` field matches, as in the lookup loop of
`processExecutionBuffer` (`websocket.go` 1664-1672). -/
def lookupCoin : List CoinBalance → String → Option CoinBalance
  | [], _ => none
  | c :: rest, name => if c.Coin = name then some c else lookupCoin rest name

/-- The coin-list merge of `handleWalletMessage` (`websocket.go` 1469-1491):
old coins absent from the new payload, in order, followed by every new
coin. -/
def mergeCoins (oldCoins newCoins : List CoinBalance) : List CoinBalance :=
  oldCoins.filter (fun oc => !(newCoins.any (fun nc => nc.Coin == oc.Coin))) ++ newCoins

/-- New retained wallet after a UNIFIED payload arrives: the payload itself,
with its coin list merged when a previous snapshot exists
(`websocket.go` 1464-1503). -/
def mergeWallet (old : Option WalletData) (w : WalletData) : WalletData :=
  match old with
  | none => w
  | some ow => { w with Coin := mergeCoins ow.Coin w.Coin }

/-- Mirror of the Go `ExecutionBuffer` state (`websocket.go` 52-58); the
5-minute `time.Timer` is not part of the data model here. -/
structure ExecutionBuffer where
  lastWallet : Option WalletData := none
  positions : List (String × PositionData) := []
deriving DecidableEq

/-- Per-item effect of `handleWalletMessage` (`websocket.go` 1452-1510):
only UNIFIED payloads are processed, and only when the account's execution
buffer already exists. -/
def walletStepItem (buf : Option ExecutionBuffer) (w : WalletData) : Option ExecutionBuffer :=
  if w.AccountType = "UNIFIED" then
    buf.map (fun b => { b with lastWallet := some (mergeWallet b.lastWallet w) })
  else buf

/-- Embedding of `handleWalletMessage` over the message's data list. -/
def handleWalletMessage (buf : Option ExecutionBuffer) (data : List WalletData) :
    Option ExecutionBuffer :=
  data.foldl walletStepItem buf

/-- Last-write-wins per-symbol insertion into the positions map. -/
def insertPosition (ps : List (String × PositionData)) (sym : String) (p : PositionData) :
    List (String × PositionData) :=
  if ps.any (fun q => q.1 == sym) then ps.map (fun q => if q.1 == sym then (sym, p) else q)
  else ps ++ [(sym, p)]

/-- Per-item effect of `handlePositionMessage` (`websocket.go` 1398-1423):
only inverse positions are processed, and only when the account's execution
buffer already exists. -/
def positionStepItem (buf : Option ExecutionBuffer) (p : PositionData) : Option ExecutionBuffer :=
  if p.Category = "inverse" then
    buf.map (fun b => { b with positions := insertPosition b.positions p.Symbol p })
  else buf

/-- Embedding of `handlePositionMessage` over the message's data list. -/
def handlePositionMessage (buf : Option ExecutionBuffer) (data : List PositionData) :
    Option ExecutionBuffer :=
  data.foldl positionStepItem buf

/-- Effect of `addExecutionToBuffer` (`websocket.go` 1513-1551) on the
buffer entry: create it when absent (also arming the 5-minute timer, not
modelled as data). -/
def addExecutionToBuffer (buf : Option ExecutionBuffer) : Option ExecutionBuffer :=
  some (buf.getD { lastWallet := none, positions := [] })

/-- Per-item effect of `handleExecutionMessage` (`websocket.go` 1345-1369):
only inverse `Trade` executions arm the buffer. -/
def execStepItem (buf : Option ExecutionBuffer) (e : ExecutionData) : Option ExecutionBuffer :=
  if e.Category = "inverse" ∧ e.ExecType = "Trade" then addExecutionToBuffer buf else buf

/-- Embedding of `handleExecutionMessage` over the message's data list. -/
def handleExecutionMessage (buf : Option ExecutionBuffer) (data : List ExecutionData) :
    Option ExecutionBuffer :=
  data.foldl execStepItem buf

/-- Suffix test over characters (Go `strings.HasSuffix`). -/
def strEndsWith (s suff : String) : Bool := suff.data.isSuffixOf s.data

/-- Drop the last `n` characters of a string. -/
def strDropRight (s : String) (n : Nat) : String := String.mk (s.data.take (s.data.length - n))

/-- Coin derivation of `processExecutionBuffer` (`websocket.go` 1653-1661):
strip a trailing USD, USDT or USDC suffix from the symbol. -/
def coinFromSymbol (symbol : String) : String :=
  if strEndsWith symbol "USD" then strDropRight symbol 3
  else if strEndsWith symbol "USDT" then strDropRight symbol 4
  else if strEndsWith symbol "USDC" then strDropRight symbol 4
  else symbol

/-- Coin balance used by the dust check (`websocket.go` 1663-1672): the
parsed `UsdValue` of the first matching wallet coin, 0 when the coin is
absent or unparsable. -/
def totalEquityPerCoin (w : WalletData) (coin : String) : ℚ :=
  match lookupCoin w.Coin coin with
  | some cb => (parseFloatQ cb.UsdValue).getD 0
  | none => 0

/-- Per-coin block of the 5-minute summary, carrying the figures
interpolated into the coin message (`websocket.go` 1699-1713). -/
structure CoinBlock where
  coin : String
  symbol : String
  total : ℚ
  protecao : ℚ
  longPos : ℚ
  exposto : ℚ
  percentProtegida : ℚ
  percentLongada : ℚ
deriving DecidableEq

/-- Portfolio-wide summary block appended when the number of qualifying
symbols is not exactly one (`websocket.go` 1724-1748). -/
structure SummaryBlock where
  carteiraTotal : ℚ
  protecaoTotal : ℚ
  longTotal : ℚ
  exposicaoTotal : ℚ
  percentProtegidaGeral : ℚ
  percentLongadaGeral : ℚ
deriving DecidableEq

/-- Embedding of `calculatePositionValues` (`websocket.go` 1624-1642):
returns (long, protected, exposed) amounts. -/
def calculatePositionValues (p : PositionData) (totalEquityCoin : ℚ) : ℚ × ℚ × ℚ :=
  let size := (parseFloatQ p.Size).getD 0
  if p.Side = "Sell" then (0, size, totalEquityCoin - size)
  else (size, 0, totalEquityCoin - size)

/-- Block produced for one buffered position in the flush loop
(`websocket.go` 1652-1714); `none` exactly when the coin balance is under
the 10-unit dust threshold. -/
def positionBlock (w : WalletData) (symbol : String) (p : PositionData) : Option CoinBlock :=
  let coin := coinFromSymbol symbol
  let tec := totalEquityPerCoin w coin
  if tec < 10 then none
  else
    let (longUSD, protecaoUSD, expostoUSD) := calculatePositionValues p tec
    some { coin := coin, symbol := symbol, total := tec, protecao := protecaoUSD,
           longPos := longUSD, exposto := expostoUSD,
           percentProtegida := if 0 < protecaoUSD ∧ 0 < tec then protecaoUSD / tec * 100 else 0,
           percentLongada := if 0 < longUSD ∧ 0 < tec then longUSD / tec * 100 else 0 }

/-- All qualifying per-coin blocks of a flush, in iteration order. -/
def processBlocks (w : WalletData) (positions : List (String × PositionData)) : List CoinBlock :=
  positions.filterMap (fun sp => positionBlock w sp.1 sp.2)

/-- Wallet total used by the summary (`websocket.go` 1613-1621):
`TotalEquity`, falling back to `TotalWalletBalance`, else abort. -/
def walletTotalEquity (w : WalletData) : Option ℚ :=
  match parseFloatQ w.TotalEquity with
  | some x => some x
  | none => parseFloatQ w.TotalWalletBalance

/-- Summary block appended iff the number of qualifying blocks is not
exactly one (`websocket.go` 1723-1748). -/
def summaryFor (te : ℚ) (blocks : List CoinBlock) : Option SummaryBlock :=
  if blocks.length ≠ 1 then
    some { carteiraTotal := te,
           protecaoTotal := (blocks.map CoinBlock.protecao).sum,
           longTotal := (blocks.map CoinBlock.longPos).sum,
           exposicaoTotal := (blocks.map CoinBlock.exposto).sum,
           percentProtegidaGeral :=
             if 0 < te then (blocks.map CoinBlock.protecao).sum / te * 100 else 0,
           percentLongadaGeral :=
             if 0 < te then (blocks.map CoinBlock.longPos).sum / te * 100 else 0 }
  else none

/-- Embedding of the pure core of `processExecutionBuffer`
(`websocket.go` 1553-1758): from the retained wallet and the buffered
positions to the per-coin blocks and the optional portfolio summary;
`none` when no wallet is retained or neither total parses. -/
def processExecutionBuffer :
    Option WalletData → List (String × PositionData) →
      Option (List CoinBlock × Option SummaryBlock)
  | none, _ => none
  | some w, positions =>
    match walletTotalEquity w with
    | none => none
    | some te => some (processBlocks w positions, summaryFor te (processBlocks w positions))

/-- Backoff state of the retry loop in `runConnection`
(`websocket.go` 389-401). -/
structure RetryState where
  retryDelay : Nat
  consecutiveFailures : Nat
deriving DecidableEq

/-- Initial retry delay: 5 seconds, in milliseconds. -/
def initialRetryDelay : Nat := 5000

/-- Backoff doubling threshold: 5 minutes, in milliseconds. -/
def maxRetryDelay : Nat := 300000

/-- Forced-cooldown guard at the top of each loop iteration
(`websocket.go` 420-432): at 10 consecutive failures wait 30 s, reset the
delay and the counter. -/
def cooldownStep (s : RetryState) : List Nat × RetryState :=
  if 10 ≤ s.consecutiveFailures then ([30000], ⟨initialRetryDelay, 0⟩) else ([], s)

/-- Connect attempt outcome handling (`websocket.go` 434-472): on failure
wait the current delay, then double it only while it is under the 5-minute
threshold; on success reset everything and wait the initial delay. -/
def attemptStep (s : RetryState) (fail : Bool) : List Nat × RetryState :=
  if fail then
    ([s.retryDelay],
     ⟨if s.retryDelay < maxRetryDelay then s.retryDelay * 2 else s.retryDelay,
      s.consecutiveFailures + 1⟩)
  else ([initialRetryDelay], ⟨initialRetryDelay, 0⟩)

/-- One iteration of the retry loop: cooldown guard, then attempt. -/
def retryIter (s : RetryState) (fail : Bool) : List Nat × RetryState :=
  ((cooldownStep s).1 ++ (attemptStep (cooldownStep s).2 fail).1,
   (attemptStep (cooldownStep s).2 fail).2)

/-- All waits performed by the retry loop over a sequence of attempt
outcomes (`true` = connect-and-serve returned an error). -/
def runConnectionWaits : RetryState → List Bool → List Nat
  | _, [] => []
  | s, f :: fs => (retryIter s f).1 ++ runConnectionWaits (retryIter s f).2 fs

/-- Waits of the retry loop started from the initial state
(`websocket.go` 390-400). -/
def runConnectionWaitsInit (fs : List Bool) : List Nat :=
  runConnectionWaits ⟨initialRetryDelay, 0⟩ fs

/-- Mirror of the Go `BybitAccount` struct (`account.go` 8-17). -/
structure BybitAccount where
  ID : Int := 0
  Name : String := ""
  APIKey : String := ""
  APISecret : String := ""
  WebhookURL : String := ""
  Active : Bool := false
  MarkEveryoneOrder : Bool := false
  MarkEveryoneWallet : Bool := false
deriving DecidableEq

/-- Registry state touched by `StartConnection`: the live-connection ids
(`wsm.connections` keys) and the persisted active flags
(`active_connections` rows). -/
structure WSMState where
  connections : List Int := []
  activeFlags : List Int := []
deriving DecidableEq

/-- Account lookup by id (`AccountManager.GetAccount` against the store). -/
def lookupAccount (accounts : List (Int × BybitAccount)) (id : Int) : Option BybitAccount :=
  (accounts.find? (fun p => p.1 == id)).map Prod.snd

/-- Error text of `StartConnection` when an entry already exists
(`websocket.go` 189). -/
def errAlreadyActive : String := "conexão já está ativa para esta conta"

/-- Error text of `GetAccount` when the account id is unknown
(`account.go` 103). -/
def errAccountNotFound : String := "conta não encontrada"

/-- Embedding of `StartConnection` (`websocket.go` 184-249): reject when a
live entry exists; fail when the account cannot be fetched; otherwise add
the entry and best-effort mark the persisted flag (`setActiveOk` models
whether `SetConnectionActive` succeeds — its failure is swallowed).  The
asynchronous launch of `runConnection` carries no registry effect. -/
def startConnection (st : WSMState) (accounts : List (Int × BybitAccount))
    (setActiveOk : Bool) (id : Int) : Option String × WSMState :=
  if id ∈ st.connections then (some errAlreadyActive, st)
  else
    match lookupAccount accounts id with
    | none => (some errAccountNotFound, st)
    | some _ =>
      let st2 : WSMState := { st with connections := st.connections ++ [id] }
      let st3 : WSMState :=
        if setActiveOk then
          { st2 with activeFlags :=
              if id ∈ st2.activeFlags then st2.activeFlags else st2.activeFlags ++ [id] }
        else st2
      (none, st3)

/-- Display-price condition as the code implements it, for the amended
claim: a Market order uses the average whenever it is present and
non-zero (regardless of status), a Limit order only when filled or
partially filled. -/
def specDisplayCond (o : OrderData) : Prop :=
  (o.OrderType = "Market" ∧ o.AvgPrice ≠ "" ∧ o.AvgPrice ≠ "0") ∨
    (o.OrderType = "Limit" ∧ (o.OrderStatus = "Filled" ∨ o.OrderStatus = "PartiallyFilled") ∧
      o.AvgPrice ≠ "" ∧ o.AvgPrice ≠ "0")

/-- Invariant of the retry delay: always 5000 ms times a power of two, with
exponent at most 6 (so at most 320000 ms). -/
def goodDelay (d : Nat) : Prop := ∃ k ≤ 6, d = 5000 * 2 ^ k

/-- Concise order literal for concrete examples: an inverse Limit order in
status New for BTCUSD at the given price and quantity. -/
def exOrder (price qty : String) : OrderData :=
  { Category := "inverse", Symbol := "BTCUSD", Side := "Buy", OrderType := "Limit",
    OrderStatus := "New", Price := price, Qty := qty }

/-- Concrete counterexample order for the display-price rule: a Market
order still in status New carrying a non-zero average price. -/
def cexMarketOrder : OrderData :=
  { Category := "inverse", Symbol := "BTCUSD", Side := "Buy", OrderType := "Market",
    OrderStatus := "New", AvgPrice := "5", Price := "7", Qty := "1" }

/-- Concise coin literal: name and `UsdValue` balance. -/
def mkCoin (name v : String) : CoinBalance := { Coin := name, UsdValue := v }

/-- Concrete wallet for the dust-threshold counterexample: total equity 100,
one BTC coin entry worth 5 (below the dust threshold). -/
def cexWallet : WalletData :=
  { AccountType := "UNIFIED", TotalEquity := "100", TotalWalletBalance := "100",
    Coin := [mkCoin "BTC" "5"] }

/-- Concrete position for the dust-threshold counterexample. -/
def cexPosition : PositionData :=
  { Symbol := "BTCUSD", Side := "Sell", Size := "5", Category := "inverse" }

/-!
Theorems.  Reference-vector checks first, then shared helper lemmas, then
one theorem per claim (with witness / counterexample theorems as needed).
-/

/-- Golden value check: the SHA-256 embedding reproduces the FIPS 180-4
reference digest of the string `abc`. -/
example : bytesToHex (sha256 (strBytes "abc")) =
    "ba7816bf8f01cfea414140de5dae2223b00361a396177a9cb410ff61f20015ad" := by decide

/-- Feeding a position item into an absent buffer leaves it absent. -/
theorem positionStepItem_none (p : PositionData) : positionStepItem none p = none := by
  unfold positionStepItem; split <;> simp

/-- Feeding a wallet item into an absent buffer leaves it absent. -/
theorem walletStepItem_none (w : WalletData) : walletStepItem none w = none := by
  unfold walletStepItem; split <;> simp

/-- A whole position message leaves an absent buffer absent. -/
theorem handlePositionMessage_none (data : List PositionData) :
    handlePositionMessage none data = none := by
  induction data with
  | nil => rfl
  | cons d ds ih =>
    unfold handlePositionMessage at ih ⊢
    rw [List.foldl_cons, positionStepItem_none]
    exact ih

/-- A whole wallet message leaves an absent buffer absent. -/
theorem handleWalletMessage_none (data : List WalletData) :
    handleWalletMessage none data = none := by
  induction data with
  | nil => rfl
  | cons d ds ih =>
    unfold handleWalletMessage at ih ⊢
    rw [List.foldl_cons, walletStepItem_none]
    exact ih

/-- C10: position-topic and wallet-topic payloads arriving while the
account's execution buffer does not exist are silently discarded — the
buffer stays absent, so no position or wallet state is retained — and the
buffer is created (armed) only by a qualifying inverse Trade execution. -/
theorem C10_buffer_gating :
    (∀ data : List PositionData, handlePositionMessage none data = none) ∧
    (∀ data : List WalletData, handleWalletMessage none data = none) ∧
    (∀ e : ExecutionData, e.Category = "inverse" → e.ExecType = "Trade" →
      handleExecutionMessage none [e] = some { lastWallet := none, positions := [] }) := by
  refine ⟨handlePositionMessage_none, handleWalletMessage_none, ?_⟩
  intro e hc ht
  unfold handleExecutionMessage
  rw [List.foldl_cons]
  unfold execStepItem
  rw [if_pos ⟨hc, ht⟩]
  rfl

/-- Witness for C10 at a concrete execution item. -/
theorem C10_buffer_gating_witness :
    handleExecutionMessage none
        [{ Category := "inverse", ExecType := "Trade", Symbol := "BTCUSD" }] =
      some { lastWallet := none, positions := [] } :=
  C10_buffer_gating.2.2 { Category := "inverse", ExecType := "Trade", Symbol := "BTCUSD" }
    rfl rfl

/-- Counterexample to C8 as stated: a confirmation response lacking an
explicit `success` boolean is *rejected* with the unexpected-response
error, not accepted. -/
theorem C8_missing_success_cex :
    authResponseCheck [("ret_msg", GoVal.gstr "ok")] =
      .error "resposta de autenticação inesperada" := rfl

/-- C8 (amended): the one auth response read under the 5-second deadline is
accepted only on an explicit boolean `success=true`; `success=false` is an
authentication failure, and a response whose `success` field is missing or
non-boolean is rejected with the unexpected-response error. -/
theorem C8_auth_response_decision (resp : List (String × GoVal)) :
    (lookupField resp "success" = some (.gbool false) →
      authResponseCheck resp = .error "autenticação falhou") ∧
    (lookupField resp "success" = some (.gbool true) → authResponseCheck resp = .ok ()) ∧
    ((∀ b, lookupField resp "success" ≠ some (.gbool b)) →
      authResponseCheck resp = .error "resposta de autenticação inesperada") := by
  refine ⟨?_, ?_, ?_⟩ <;> intro h
  · unfold authResponseCheck; rw [h]
  · unfold authResponseCheck; rw [h]
  · unfold authResponseCheck
    cases hv : lookupField resp "success" with
    | none => rfl
    | some v =>
      cases v with
      | gbool b => exact absurd hv (h b)
      | gstr s => rfl
      | gother => rfl

/-- Witness for C8 at a concrete successful response. -/
theorem C8_auth_response_decision_witness :
    authResponseCheck [("success", GoVal.gbool true), ("ret_msg", GoVal.gstr "")] = .ok () :=
  (C8_auth_response_decision [("success", GoVal.gbool true), ("ret_msg", GoVal.gstr "")]).2.1 rfl

/-- Rejected start: with a live entry present the call fails and returns
the state unchanged. -/
theorem startConnection_already (st : WSMState) (accounts : List (Int × BybitAccount))
    (ok : Bool) (id : Int) (h : id ∈ st.connections) :
    startConnection st accounts ok id = (some errAlreadyActive, st) := by
  unfold startConnection
  rw [if_pos h]

/-- Successful start: no error and the account id is appended to the live
registry, whatever the flag store does. -/
theorem startConnection_ok (st : WSMState) (accounts : List (Int × BybitAccount))
    (ok : Bool) (id : Int) (a : BybitAccount)
    (h : id ∉ st.connections) (hl : lookupAccount accounts id = some a) :
    (startConnection st accounts ok id).1 = none ∧
      (startConnection st accounts ok id).2.connections = st.connections ++ [id] := by
  unfold startConnection
  rw [if_neg h, hl]
  cases ok <;> simp

/-- C9: starting a connection for an account with a live entry fails with
the already-active error and leaves the registry untouched; with no live
entry and a resolvable account it succeeds, appends exactly one entry
(best-effort flag marking — a flag-store failure does not change the
outcome), and a second start for the same id then fails while keeping
exactly one live session. -/
theorem C9_start_connection :
    (∀ (st : WSMState) (accounts : List (Int × BybitAccount)) (ok : Bool) (id : Int),
      id ∈ st.connections → startConnection st accounts ok id = (some errAlreadyActive, st)) ∧
    (∀ (st : WSMState) (accounts : List (Int × BybitAccount)) (ok : Bool) (id : Int)
        (a : BybitAccount), id ∉ st.connections → lookupAccount accounts id = some a →
      (startConnection st accounts ok id).1 = none ∧
        (startConnection st accounts ok id).2.connections = st.connections ++ [id]) ∧
    (∀ (st : WSMState) (accounts : List (Int × BybitAccount)) (ok ok2 : Bool) (id : Int)
        (a : BybitAccount), id ∉ st.connections → lookupAccount accounts id = some a →
      (startConnection st accounts ok id).1 = (startConnection st accounts ok2 id).1) ∧
    (∀ (st : WSMState) (accounts : List (Int × BybitAccount)) (ok ok2 : Bool) (id : Int)
        (a : BybitAccount), id ∉ st.connections → lookupAccount accounts id = some a →
      (startConnection st accounts ok id).2.connections.count id = 1 ∧
        (startConnection ((startConnection st accounts ok id).2) accounts ok2 id).1 =
          some errAlreadyActive ∧
        (startConnection ((startConnection st accounts ok id).2) accounts ok2 id).2 =
          (startConnection st accounts ok id).2) := by
  refine ⟨?_, ?_, ?_, ?_⟩
  · intro st accounts ok id h
    exact startConnection_already st accounts ok id h
  · intro st accounts ok id a h hl
    exact startConnection_ok st accounts ok id a h hl
  · intro st accounts ok ok2 id a h hl
    rw [(startConnection_ok st accounts ok id a h hl).1,
      (startConnection_ok st accounts ok2 id a h hl).1]
  · intro st accounts ok ok2 id a h hl
    have h1 := startConnection_ok st accounts ok id a h hl
    have hmem : id ∈ (startConnection st accounts ok id).2.connections := by
      rw [h1.2]; simp
    refine ⟨?_, ?_, ?_⟩
    · rw [h1.2, List.count_append]
      rw [List.count_eq_zero.mpr h]
      simp
    · rw [startConnection_already _ accounts ok2 id hmem]
    · rw [startConnection_already _ accounts ok2 id hmem]

/-- Witness for C9: a concrete double start. -/
theorem C9_start_connection_witness :
    (startConnection { connections := [], activeFlags := [] }
        [((7 : Int), { ID := 7, Name := "acct" })] true 7).2.connections.count 7 = 1 ∧
      (startConnection ((startConnection { connections := [], activeFlags := [] }
          [((7 : Int), { ID := 7, Name := "acct" })] true 7).2)
        [((7 : Int), { ID := 7, Name := "acct" })] true 7).1 = some errAlreadyActive :=
  ⟨(C9_start_connection.2.2.2 { connections := [], activeFlags := [] }
      [((7 : Int), { ID := 7, Name := "acct" })] true true 7 { ID := 7, Name := "acct" }
      (by decide) (by decide)).1,
   (C9_start_connection.2.2.2 { connections := [], activeFlags := [] }
      [((7 : Int), { ID := 7, Name := "acct" })] true true 7 { ID := 7, Name := "acct" }
      (by decide) (by decide)).2.1⟩

/-- Core debounce lemma: while every gap stays under 2000 ms every append
re-arms the timer, so the run produces a single flush, 2000 ms after the
last append, holding the pending elements followed by the appended ones in
arrival order. -/
theorem debounceRun_gapsOk {α : Type} (rest : List (Nat × α)) :
    ∀ (t : Nat) (pending : List α), gapsOk t rest →
      debounceRun pending (t + 2000) rest =
        [(lastTime t rest + 2000, pending ++ rest.map Prod.snd)] := by
  induction rest with
  | nil =>
    intro t pending _
    simp [debounceRun, lastTime]
  | cons p rest ih =>
    obtain ⟨u, x⟩ := p
    intro t pending hg
    obtain ⟨htu, hlt, hg2⟩ := hg
    unfold debounceRun
    rw [if_pos hlt, ih u (pending ++ [x]) hg2]
    simp [lastTime]

/-- C2: within a burst whose consecutive inter-arrival gaps are all under
2 seconds, the buffer flushes exactly once, 2 seconds after the last
append, with every appended element in arrival order; in particular two
appends at t and t+1.9 s flush exactly once at t+3.9 s and never at
t+2.0 s; and a flush swaps out the whole buffer contents and removes the
buffer entry. -/
theorem C2_debounce_buffer :
    (∀ (α : Type) (t0 : Nat) (x0 : α) (rest : List (Nat × α)), gapsOk t0 rest →
      debounceFlushes ((t0, x0) :: rest) =
        [(lastTime t0 rest + 2000, x0 :: rest.map Prod.snd)]) ∧
    (∀ (α : Type) (t : Nat) (a b : α),
      debounceFlushes [(t, a), (t + 1900, b)] = [(t + 3900, [a, b])] ∧
        (t + 2000) ∉ (debounceFlushes [(t, a), (t + 1900, b)]).map Prod.fst) ∧
    (∀ (α : Type) (x : α) (xs : List α), flushSwap (some (x :: xs)) = (x :: xs, none)) := by
  refine ⟨?_, ?_, ?_⟩
  · intro α t0 x0 rest hg
    simp only [debounceFlushes]
    rw [debounceRun_gapsOk rest t0 [x0] hg]
    rfl
  · intro α t a b
    have hg : gapsOk t [(t + 1900, b)] := ⟨by omega, by omega, trivial⟩
    have h := debounceRun_gapsOk [(t + 1900, b)] t [a] hg
    simp only [debounceFlushes]
    rw [h]
    exact ⟨by simp [lastTime], by simp [lastTime]⟩
  · intro α x xs
    rfl

/-- Witness for C2 at a concrete two-element burst. -/
theorem C2_debounce_buffer_witness :
    debounceFlushes [((100 : Nat), (1 : Nat)), (1100, 2)] = [(3100, [1, 2])] := by
  have h := C2_debounce_buffer.1 Nat 100 1 [(1100, 2)] (by exact ⟨by omega, by omega, trivial⟩)
  simpa [lastTime] using h

/-- Any wait emitted by one retry-loop iteration from a good state is at
most 320000 ms. -/
theorem retryIter_wait_le (s : RetryState) (f : Bool) (hs : goodDelay s.retryDelay) :
    ∀ w ∈ (retryIter s f).1, w ≤ 320000 := by
  obtain ⟨k, hk, hd⟩ := hs
  have hdle : s.retryDelay ≤ 320000 := by
    have h2 : (2 : Nat) ^ k ≤ 2 ^ 6 := Nat.pow_le_pow_right (by omega) hk
    omega
  intro w hw
  unfold retryIter cooldownStep attemptStep at hw
  by_cases h10 : 10 ≤ s.consecutiveFailures <;> cases f <;>
    simp [h10, initialRetryDelay, maxRetryDelay] at hw <;> omega

/-- The initial 5-second delay satisfies the good-delay invariant. -/
theorem goodDelay_initial : goodDelay initialRetryDelay := ⟨0, by omega, by decide⟩

/-- The conditional doubling of the retry delay preserves the good-delay
invariant: a delay already at least 5 minutes is no longer doubled. -/
theorem goodDelay_double (d : Nat) (h : goodDelay d) :
    goodDelay (if d < maxRetryDelay then d * 2 else d) := by
  obtain ⟨k, hk, hd⟩ := h
  by_cases hlt : d < maxRetryDelay
  · rw [if_pos hlt]
    refine ⟨k + 1, ?_, by rw [hd, pow_succ]; ring⟩
    by_contra h6
    have h2 : (2 : Nat) ^ 6 ≤ 2 ^ k := Nat.pow_le_pow_right (by omega) (by omega)
    have h3 : (5000 : Nat) * 2 ^ 6 ≤ 5000 * 2 ^ k := Nat.mul_le_mul_left 5000 h2
    rw [hd] at hlt
    unfold maxRetryDelay at hlt
    omega
  · rw [if_neg hlt]
    exact ⟨k, hk, hd⟩

/-- One retry-loop iteration preserves the good-delay invariant. -/
theorem retryIter_good (s : RetryState) (f : Bool) (hs : goodDelay s.retryDelay) :
    goodDelay (retryIter s f).2.retryDelay := by
  unfold retryIter cooldownStep attemptStep
  by_cases h10 : 10 ≤ s.consecutiveFailures <;> cases f <;> simp [h10] <;>
    first
      | exact goodDelay_initial
      | exact goodDelay_double _ goodDelay_initial
      | exact goodDelay_double _ hs

/-- Every wait of the retry loop from a good state is at most 320000 ms. -/
theorem runConnectionWaits_le (fs : List Bool) :
    ∀ s : RetryState, goodDelay s.retryDelay → ∀ w ∈ runConnectionWaits s fs, w ≤ 320000 := by
  induction fs with
  | nil =>
    intro s _ w hw
    simp [runConnectionWaits] at hw
  | cons f fs ih =>
    intro s hs w hw
    unfold runConnectionWaits at hw
    rw [List.mem_append] at hw
    rcases hw with hw | hw
    · exact retryIter_wait_le s f hs w hw
    · exact ih (retryIter s f).2 (retryIter_good s f hs) w hw

/-- Counterexample to C6 as stated: after seven consecutive failures the
loop waits 320000 ms = 5 min 20 s before the next reconnection attempt,
which exceeds the claimed 5-minute (300000 ms) ceiling. -/
theorem C6_backoff_cex :
    runConnectionWaitsInit (List.replicate 7 true) =
        [5000, 10000, 20000, 40000, 80000, 160000, 320000] ∧
      (300000 : Nat) < 320000 := by
  constructor
  · decide
  · decide

/-- C6 (amended): the retry delay starts at 5 s and doubles after each
consecutive failure only while it is still under 5 minutes, so the waited
delay can reach but never exceeds 320 s (5 min 20 s); when the
consecutive-failure counter reaches 10 the loop waits 30 s, resets the
delay to 5 s and the counter to zero before the next attempt; a successful
return resets both. -/
theorem C6_retry_backoff :
    (∀ fs : List Bool, ∀ w ∈ runConnectionWaitsInit fs, w ≤ 320000) ∧
    (∀ s : RetryState, s.consecutiveFailures < 10 → s.retryDelay < maxRetryDelay →
      retryIter s true = ([s.retryDelay], ⟨s.retryDelay * 2, s.consecutiveFailures + 1⟩)) ∧
    (∀ (s : RetryState) (f : Bool), 10 ≤ s.consecutiveFailures →
      retryIter s f = (30000 :: (attemptStep ⟨initialRetryDelay, 0⟩ f).1,
        (attemptStep ⟨initialRetryDelay, 0⟩ f).2)) ∧
    (∀ s : RetryState, s.consecutiveFailures < 10 →
      retryIter s false = ([initialRetryDelay], ⟨initialRetryDelay, 0⟩)) := by
  refine ⟨?_, ?_, ?_, ?_⟩
  · intro fs
    exact runConnectionWaits_le fs ⟨initialRetryDelay, 0⟩ ⟨0, by omega, by decide⟩
  · intro s hcf hlt
    unfold retryIter cooldownStep attemptStep
    simp [Nat.not_le.mpr hcf, hlt]
  · intro s f h10
    unfold retryIter cooldownStep
    simp [h10]
  · intro s hcf
    unfold retryIter cooldownStep attemptStep
    simp [Nat.not_le.mpr hcf]

/-- Witness for C6: concrete doubling step and bounded wait. -/
theorem C6_retry_backoff_witness :
    retryIter ⟨5000, 0⟩ true = ([5000], ⟨10000, 1⟩) ∧
      ∀ w ∈ runConnectionWaitsInit [true, true], w ≤ 320000 :=
  ⟨C6_retry_backoff.2.1 ⟨5000, 0⟩ (by decide) (by decide),
   fun w hw => C6_retry_backoff.1 [true, true] w hw⟩

/-- Lookup distributes over append when the left part misses. -/
theorem lookupCoin_append_none (l1 l2 : List CoinBalance) (name : String)
    (h : lookupCoin l1 name = none) : lookupCoin (l1 ++ l2) name = lookupCoin l2 name := by
  induction l1 with
  | nil => rfl
  | cons c cs ih =>
    simp only [lookupCoin] at h ⊢
    by_cases hc : c.Coin = name
    · rw [if_pos hc] at h
      exact absurd h (by simp)
    · rw [if_neg hc] at h ⊢
      exact ih h

/-- Lookup distributes over append when the left part hits. -/
theorem lookupCoin_append_some (l1 l2 : List CoinBalance) (name : String) (c : CoinBalance)
    (h : lookupCoin l1 name = some c) : lookupCoin (l1 ++ l2) name = some c := by
  induction l1 with
  | nil => exact absurd h (by simp [lookupCoin])
  | cons d ds ih =>
    simp only [lookupCoin] at h ⊢
    by_cases hd : d.Coin = name
    · rw [if_pos hd] at h ⊢
      exact h
    · rw [if_neg hd] at h ⊢
      exact ih h

/-- A list with no entry for `name` looks up to `none`. -/
theorem lookupCoin_eq_none (l : List CoinBalance) (name : String)
    (h : ∀ c ∈ l, c.Coin ≠ name) : lookupCoin l name = none := by
  induction l with
  | nil => rfl
  | cons c cs ih =>
    simp only [lookupCoin]
    rw [if_neg (h c (by simp))]
    exact ih (fun d hd => h d (List.mem_cons_of_mem c hd))

/-- Filtering away only entries with other names does not change a lookup. -/
theorem lookupCoin_filter (p : CoinBalance → Bool) (l : List CoinBalance) (name : String)
    (h : ∀ c ∈ l, c.Coin = name → p c = true) :
    lookupCoin (l.filter p) name = lookupCoin l name := by
  induction l with
  | nil => rfl
  | cons c cs ih =>
    have ihr := ih (fun d hd hdn => h d (List.mem_cons_of_mem c hd) hdn)
    by_cases hc : c.Coin = name
    · rw [List.filter_cons_of_pos (h c (by simp) hc)]
      simp only [lookupCoin]
      rw [if_pos hc, if_pos hc]
    · cases hpc : p c
      · rw [List.filter_cons_of_neg (by simp [hpc])]
        simp only [lookupCoin]
        rw [if_neg hc]
        exact ihr
      · rw [List.filter_cons_of_pos hpc]
        simp only [lookupCoin]
        rw [if_neg hc, if_neg hc]
        exact ihr

/-- Coins kept by the merge's filter never collide with a new coin name. -/
theorem mergeCoins_filter_spec (oldCoins newCoins : List CoinBalance) (c : CoinBalance)
    (hc : c ∈ oldCoins.filter (fun oc => !(newCoins.any (fun nc => nc.Coin == oc.Coin)))) :
    ∀ nc ∈ newCoins, nc.Coin ≠ c.Coin := by
  rw [List.mem_filter] at hc
  intro nc hnc
  have h2 := hc.2
  simp only [Bool.not_eq_true', List.any_eq_false] at h2
  simpa using h2 nc hnc

/-- C4: a UNIFIED wallet payload arriving while a snapshot is retained
replaces the snapshot by the payload with its coin list merged: coins
absent from the payload keep their old entry, coins present in the payload
take the new entry, and the spec example {BTC:1, ETH:2} + {ETH:3, SOL:4} =
{BTC:1, ETH:3, SOL:4} holds. -/
theorem C4_wallet_merge :
    (∀ (b : ExecutionBuffer) (ow w : WalletData), w.AccountType = "UNIFIED" →
      b.lastWallet = some ow →
      walletStepItem (some b) w =
        some { b with lastWallet := some { w with Coin := mergeCoins ow.Coin w.Coin } }) ∧
    (∀ (oldCoins newCoins : List CoinBalance) (name : String),
      (¬ ∃ c ∈ newCoins, c.Coin = name) →
      lookupCoin (mergeCoins oldCoins newCoins) name = lookupCoin oldCoins name) ∧
    (∀ (oldCoins newCoins : List CoinBalance) (name : String),
      (∃ c ∈ newCoins, c.Coin = name) →
      lookupCoin (mergeCoins oldCoins newCoins) name = lookupCoin newCoins name) ∧
    mergeCoins [mkCoin "BTC" "1", mkCoin "ETH" "2"] [mkCoin "ETH" "3", mkCoin "SOL" "4"] =
      [mkCoin "BTC" "1", mkCoin "ETH" "3", mkCoin "SOL" "4"] := by
  refine ⟨?_, ?_, ?_, by decide⟩
  · intro b ow w hU hlw
    unfold walletStepItem
    rw [if_pos hU]
    simp only [Option.map_some']
    unfold mergeWallet
    rw [hlw]
  · intro oldCoins newCoins name hnew
    unfold mergeCoins
    have hfil : ∀ c ∈ oldCoins, c.Coin = name →
        (fun oc => !(newCoins.any (fun nc => nc.Coin == oc.Coin))) c = true := by
      intro c _ hcn
      simp only [Bool.not_eq_true', List.any_eq_false, beq_eq_false_iff_ne]
      intro nc hnc
      rw [hcn]
      intro hbad
      exact hnew ⟨nc, hnc, by simpa using hbad⟩
    have hf := lookupCoin_filter _ oldCoins name hfil
    cases hx : lookupCoin
        (oldCoins.filter (fun oc => !(newCoins.any (fun nc => nc.Coin == oc.Coin)))) name with
    | some c =>
      rw [lookupCoin_append_some _ _ _ _ hx, ← hf, hx]
    | none =>
      rw [lookupCoin_append_none _ _ _ hx, ← hf, hx]
      refine lookupCoin_eq_none _ _ ?_
      intro c hc hcn
      exact hnew ⟨c, hc, hcn⟩
  · intro oldCoins newCoins name hnew
    unfold mergeCoins
    refine lookupCoin_append_none _ _ _ ?_
    refine lookupCoin_eq_none _ _ ?_
    intro c hc
    obtain ⟨nc, hnc, hncn⟩ := hnew
    have := mergeCoins_filter_spec oldCoins newCoins c hc nc hnc
    intro hcn
    exact this (hcn ▸ hncn)

/-- Witness for C4: the retained BTC coin still looks up to its old entry
after the example merge. -/
theorem C4_wallet_merge_witness :
    lookupCoin (mergeCoins [mkCoin "BTC" "1", mkCoin "ETH" "2"]
        [mkCoin "ETH" "3", mkCoin "SOL" "4"]) "BTC" =
      lookupCoin [mkCoin "BTC" "1", mkCoin "ETH" "2"] "BTC" :=
  C4_wallet_merge.2.1 [mkCoin "BTC" "1", mkCoin "ETH" "2"]
    [mkCoin "ETH" "3", mkCoin "SOL" "4"] "BTC" (by decide)

/-- `filterMap` ignores elements the filter would drop when they map to
`none` anyway. -/
theorem filterMap_over_filter {α β : Type} (f : α → Option β) (p : α → Bool) :
    ∀ l : List α, (∀ x ∈ l, p x = false → f x = none) →
      (l.filter p).filterMap f = l.filterMap f := by
  intro l
  induction l with
  | nil => intro _; rfl
  | cons a l ih =>
    intro h
    have ihr := ih (fun x hx => h x (List.mem_cons_of_mem a hx))
    cases hp : p a
    · rw [List.filter_cons_of_neg (by simp [hp])]
      rw [List.filterMap_cons, h a (by simp) hp]
      exact ihr
    · rw [List.filter_cons_of_pos hp]
      rw [List.filterMap_cons, List.filterMap_cons]
      cases hfa : f a <;> simp [ihr]

/-- A position whose derived coin balance is under the dust threshold
produces no block. -/
theorem positionBlock_dust (w : WalletData) (symbol : String) (p : PositionData)
    (h : totalEquityPerCoin w (coinFromSymbol symbol) < 10) :
    positionBlock w symbol p = none := by
  unfold positionBlock
  rw [if_pos h]

/-- Counterexample to C5 as stated: with a single buffered position whose
coin balance (5) is under the dust threshold, the flush yields zero
per-coin blocks — the dust position is indeed skipped — but the
portfolio-wide summary block IS appended (zero qualifying symbols ≠ 1). -/
theorem C5_dust_summary_cex :
    processExecutionBuffer (some cexWallet) [("BTCUSD", cexPosition)] =
      some ([], some { carteiraTotal := 100, protecaoTotal := 0, longTotal := 0,
                       exposicaoTotal := 0, percentProtegidaGeral := 0,
                       percentLongadaGeral := 0 }) := by
  have hblocks : processBlocks cexWallet [("BTCUSD", cexPosition)] = [] := by decide
  have hte : walletTotalEquity cexWallet = some 100 := by decide
  simp only [processExecutionBuffer]
  rw [hte, hblocks]
  unfold summaryFor
  norm_num

/-- C5 (amended): every buffered position whose derived coin balance is
below 10 in the merged wallet snapshot is skipped entirely and contributes
nothing to the flush — removing all dust positions leaves the output
unchanged — and the portfolio-wide summary block is appended exactly when
the number of qualifying symbols differs from one, so with zero qualifying
symbols the summary IS appended. -/
theorem C5_dust_skip :
    (∀ (w : WalletData) (positions : List (String × PositionData)),
      processExecutionBuffer (some w) positions =
        processExecutionBuffer (some w)
          (positions.filter
            (fun sp => !(decide (totalEquityPerCoin w (coinFromSymbol sp.1) < 10))))) ∧
    (∀ (w : WalletData) (positions : List (String × PositionData))
        (blocks : List CoinBlock) (summ : Option SummaryBlock),
      processExecutionBuffer (some w) positions = some (blocks, summ) →
      (summ.isSome ↔ blocks.length ≠ 1)) := by
  constructor
  · intro w positions
    have hb : (positions.filter
          (fun sp => !(decide (totalEquityPerCoin w (coinFromSymbol sp.1) < 10)))).filterMap
            (fun sp => positionBlock w sp.1 sp.2) =
        positions.filterMap (fun sp => positionBlock w sp.1 sp.2) := by
      refine filterMap_over_filter _ _ positions ?_
      intro sp _ hfalse
      simp only [Bool.not_eq_false', decide_eq_true_eq] at hfalse
      exact positionBlock_dust w sp.1 sp.2 hfalse
    simp only [processExecutionBuffer, processBlocks]
    simp only [hb]
  · intro w positions blocks summ h
    simp only [processExecutionBuffer] at h
    cases hte : walletTotalEquity w with
    | none =>
      rw [hte] at h
      exact absurd h (by simp)
    | some te =>
      rw [hte] at h
      simp only [Option.some.injEq, Prod.mk.injEq] at h
      obtain ⟨hb, hs⟩ := h
      subst hb
      rw [← hs]
      unfold summaryFor
      by_cases hlen : (processBlocks w positions).length ≠ 1
      · rw [if_pos hlen]
        simpa using hlen
      · rw [if_neg hlen]
        simpa using hlen

/-- Witness for C5: applying the summary rule at a concrete zero-qualifying
flush. -/
theorem C5_dust_skip_witness :
    (some { carteiraTotal := 100, protecaoTotal := 0, longTotal := 0,
            exposicaoTotal := 0, percentProtegidaGeral := 0,
            percentLongadaGeral := 0 } : Option SummaryBlock).isSome ↔
      ([] : List CoinBlock).length ≠ 1 :=
  C5_dust_skip.2 cexWallet [("BTCUSD", cexPosition)] []
    (some { carteiraTotal := 100, protecaoTotal := 0, longTotal := 0,
            exposicaoTotal := 0, percentProtegidaGeral := 0, percentLongadaGeral := 0 })
    (by
      have hblocks : processBlocks cexWallet [("BTCUSD", cexPosition)] = [] := by decide
      have hte : walletTotalEquity cexWallet = some 100 := by decide
      simp only [processExecutionBuffer]
      rw [hte, hblocks]
      unfold summaryFor
      norm_num)

/-- The boolean fast-fill check coincides with the claim's existential
formulation. -/
theorem isLimitQuick_iff (o : OrderData) :
    isLimitExecutedQuickly o = true ↔
      (o.OrderType = "Limit" ∧ (o.OrderStatus = "Filled" ∨ o.OrderStatus = "PartiallyFilled") ∧
        ∃ c u, parseInt64 o.CreatedTime = some c ∧ parseInt64 o.UpdatedTime = some u ∧
          0 ≤ u - c ∧ u - c ≤ 3000) := by
  unfold isLimitExecutedQuickly
  cases hc : parseInt64 o.CreatedTime <;> cases hu : parseInt64 o.UpdatedTime <;>
    simp [hc, hu, and_assoc]

/-- The source's order-buffer condition coincides with the claim's. -/
theorem routeOrderCond_iff (o : OrderData) :
    (o.OrderStatus = "New" ∨
      (o.OrderType = "Market" ∧ (o.OrderStatus = "Filled" ∨ o.OrderStatus = "PartiallyFilled")) ∨
      isLimitExecutedQuickly o = true) ↔ specOrderBufferCond o := by
  unfold specOrderBufferCond
  exact or_congr Iff.rfl (or_congr Iff.rfl (isLimitQuick_iff o))

/-- C3: the per-element routing of an order-topic message assigns exactly
one disposition, in source order: non-inverse dropped; bad rejection code
dropped; Untriggered notified immediately; Deactivated notified
immediately as a stop cancellation; CreateByStopOrder dropped; otherwise
order buffer iff new / market fill / limit fast fill, else cancel buffer
iff cancelled / non-stop non-filled cancel-type, else dropped. -/
theorem C3_order_routing (o : OrderData) :
    (o.Category ≠ "inverse" → routeOrder o = .dropped) ∧
    (o.Category = "inverse" → badRejectReason o → routeOrder o = .dropped) ∧
    (o.Category = "inverse" → ¬ badRejectReason o → o.OrderStatus = "Untriggered" →
      routeOrder o = .stopNotify) ∧
    (o.Category = "inverse" → ¬ badRejectReason o → o.OrderStatus = "Deactivated" →
      routeOrder o = .stopCancelNotify) ∧
    (routeBase o → o.CreateType = "CreateByStopOrder" → routeOrder o = .dropped) ∧
    (routeBase o → o.CreateType ≠ "CreateByStopOrder" →
      ((routeOrder o = .toOrderBuffer ↔ specOrderBufferCond o) ∧
       (routeOrder o = .toCancelBuffer ↔ ¬ specOrderBufferCond o ∧ specCancelBufferCond o) ∧
       (routeOrder o = .dropped ↔ ¬ specOrderBufferCond o ∧ ¬ specCancelBufferCond o))) := by
  refine ⟨?_, ?_, ?_, ?_, ?_, ?_⟩
  · intro h
    unfold routeOrder
    rw [if_pos h]
  · intro hc hb
    unfold routeOrder
    rw [if_neg (not_not_intro hc), if_pos hb]
  · intro hc hb hst
    unfold routeOrder
    rw [if_neg (not_not_intro hc), if_neg hb, if_pos hst]
  · intro hc hb hst
    unfold routeOrder
    rw [if_neg (not_not_intro hc), if_neg hb,
      if_neg (show ¬ o.OrderStatus = "Untriggered" by rw [hst]; decide), if_pos hst]
  · rintro ⟨h1, h2, h3, h4⟩ h5
    unfold routeOrder
    rw [if_neg (not_not_intro h1), if_neg h2, if_neg h3, if_neg h4, if_pos h5]
  · rintro ⟨h1, h2, h3, h4⟩ h5
    have hoc := routeOrderCond_iff o
    unfold routeOrder
    rw [if_neg (not_not_intro h1), if_neg h2, if_neg h3, if_neg h4, if_neg h5]
    by_cases hP1 : o.OrderStatus = "New" ∨
        (o.OrderType = "Market" ∧ (o.OrderStatus = "Filled" ∨ o.OrderStatus = "PartiallyFilled")) ∨
        isLimitExecutedQuickly o = true
    · rw [if_pos hP1]
      refine ⟨⟨fun _ => hoc.mp hP1, fun _ => rfl⟩, ?_, ?_⟩
      · constructor
        · intro hcontra
          exact absurd hcontra (by decide)
        · rintro ⟨hno, -⟩
          exact absurd (hoc.mp hP1) hno
      · constructor
        · intro hcontra
          exact absurd hcontra (by decide)
        · rintro ⟨hno, -⟩
          exact absurd (hoc.mp hP1) hno
    · rw [if_neg hP1]
      have hnospec : ¬ specOrderBufferCond o := fun hs => hP1 (hoc.mpr hs)
      by_cases hP2 : o.OrderStatus = "Cancelled" ∨
          (o.CancelType ≠ "" ∧ o.StopOrderType ≠ "Stop" ∧ o.OrderStatus ≠ "Filled")
      · rw [if_pos hP2]
        refine ⟨⟨fun hcontra => absurd hcontra (by decide), fun hs => absurd hs hnospec⟩,
          ⟨fun _ => ⟨hnospec, hP2⟩, fun _ => rfl⟩, ?_⟩
        constructor
        · intro hcontra
          exact absurd hcontra (by decide)
        · rintro ⟨-, hnc⟩
          exact absurd hP2 hnc
      · rw [if_neg hP2]
        exact ⟨⟨fun hcontra => absurd hcontra (by decide), fun hs => absurd hs hnospec⟩,
          ⟨fun hcontra => absurd hcontra (by decide), fun h => absurd h.2 hP2⟩,
          ⟨fun _ => ⟨hnospec, hP2⟩, fun _ => rfl⟩⟩

/-- Witness for C3: a fresh inverse New order is routed to the order
buffer. -/
theorem C3_order_routing_witness : routeOrder (exOrder "100" "1") = .toOrderBuffer :=
  ((C3_order_routing (exOrder "100" "1")).2.2.2.2.2
      ⟨rfl, by decide, by decide, by decide⟩ (by decide)).1.mpr (Or.inl rfl)

/-- Counterexample to C7 as stated: a Market order that is neither Filled
nor PartiallyFilled but carries a non-zero average price displays the
average, not the quoted price. -/
theorem C7_display_price_cex :
    cexMarketOrder.OrderStatus ≠ "Filled" ∧ cexMarketOrder.OrderStatus ≠ "PartiallyFilled" ∧
      getDisplayPrice cexMarketOrder = cexMarketOrder.AvgPrice ∧
      getDisplayPrice cexMarketOrder ≠ cexMarketOrder.Price := by
  decide

/-- Uniform-price example stats: prices 100 and 100, quantities 1 and 2. -/
theorem priceStats_uniform_ex :
    priceStatsGo [exOrder "100" "1", exOrder "100" "2"] = (100, 100, 3) := by
  have he : ([exOrder "100" "1", exOrder "100" "2"]).enum =
      [(0, exOrder "100" "1"), (1, exOrder "100" "2")] := by decide
  have h1 : parseFloatQ (getDisplayPrice (exOrder "100" "1")) = some 100 := by decide
  have h2 : parseFloatQ (getDisplayPrice (exOrder "100" "2")) = some 100 := by decide
  have hq1 : parseFloatQ (exOrder "100" "1").Qty = some 1 := by decide
  have hq2 : parseFloatQ (exOrder "100" "2").Qty = some 2 := by decide
  have s1 : priceStatsStep (0, 0, 0) (0, exOrder "100" "1") = (100, 100, 1) := by
    simp only [priceStatsStep, h1, hq1]
    norm_num
  have s2 : priceStatsStep (100, 100, 1) (1, exOrder "100" "2") = (100, 100, 3) := by
    simp only [priceStatsStep, h2, hq2]
    norm_num
  unfold priceStatsGo
  rw [he, List.foldl_cons, s1, List.foldl_cons, s2, List.foldl_nil]

/-- Range example stats: prices 100 and 110, quantities 1 and 2. -/
theorem priceStats_range_ex :
    priceStatsGo [exOrder "100" "1", exOrder "110" "2"] = (100, 110, 3) := by
  have he : ([exOrder "100" "1", exOrder "110" "2"]).enum =
      [(0, exOrder "100" "1"), (1, exOrder "110" "2")] := by decide
  have h1 : parseFloatQ (getDisplayPrice (exOrder "100" "1")) = some 100 := by decide
  have h2 : parseFloatQ (getDisplayPrice (exOrder "110" "2")) = some 110 := by decide
  have hq1 : parseFloatQ (exOrder "100" "1").Qty = some 1 := by decide
  have hq2 : parseFloatQ (exOrder "110" "2").Qty = some 2 := by decide
  have s1 : priceStatsStep (0, 0, 0) (0, exOrder "100" "1") = (100, 100, 1) := by
    simp only [priceStatsStep, h1, hq1]
    norm_num
  have s2 : priceStatsStep (100, 100, 1) (1, exOrder "110" "2") = (100, 110, 3) := by
    simp only [priceStatsStep, h2, hq2]
    norm_num
  unfold priceStatsGo
  rw [he, List.foldl_cons, s1, List.foldl_cons, s2, List.foldl_nil]

/-- Uniform-price example rendering. -/
theorem renderGroup_uniform_ex :
    renderGroup [exOrder "100" "1", exOrder "100" "2"] =
      some (.uniform 2 "" "Buy" "Limit" "BTCUSD" "100" 3) := by
  have hd : getDisplayPrice (exOrder "100" "1") = "100" := by decide
  have hro : (exOrder "100" "1").ReduceOnly = false := rfl
  have hsy : (exOrder "100" "1").Symbol = "BTCUSD" := rfl
  have hsi : (exOrder "100" "1").Side = "Buy" := rfl
  have hot : (exOrder "100" "1").OrderType = "Limit" := rfl
  simp only [renderGroup]
  rw [priceStats_uniform_ex]
  simp [hd, hro, hsy, hsi, hot]

/-- Range example rendering. -/
theorem renderGroup_range_ex :
    renderGroup [exOrder "100" "1", exOrder "110" "2"] =
      some (.priceRange 2 "" "Buy" "Limit" "BTCUSD" 100 110 3) := by
  have hro : (exOrder "100" "1").ReduceOnly = false := rfl
  have hsy : (exOrder "100" "1").Symbol = "BTCUSD" := rfl
  have hsi : (exOrder "100" "1").Side = "Buy" := rfl
  have hot : (exOrder "100" "1").OrderType = "Limit" := rfl
  have hne : (100 : ℚ) ≠ 110 := by norm_num
  simp only [renderGroup]
  rw [priceStats_range_ex]
  simp [hne, hro, hsy, hsi, hot]

/-- C7 (amended): order-flush grouping keys agree on equal
(symbol, reduce-only, side, kind) tuples and each group is the key's bucket
in arrival order; an element's display price is its average exactly under
the code's rule — for Market orders whenever the average is present and
non-zero regardless of status, for Limit orders only when filled or
partially filled — and its quoted price otherwise; a group renders as a
single line, as a count-plus-total line when min and max display price
coincide, and as a range block otherwise; the two concrete spec examples
(100/100 → uniform with total 3; 100/110 → range 100..110 with total 3)
hold. -/
theorem C7_order_flush :
    (∀ o : OrderData, (specDisplayCond o → getDisplayPrice o = o.AvgPrice) ∧
      (¬ specDisplayCond o → getDisplayPrice o = o.Price)) ∧
    (∀ o o2 : OrderData, o.Symbol = o2.Symbol → o.ReduceOnly = o2.ReduceOnly →
      o.Side = o2.Side → o.OrderType = o2.OrderType → groupKey o = groupKey o2) ∧
    (∀ (orders : List OrderData) (k : String) (g : List OrderData),
      (k, g) ∈ groupOrders orders → g = orders.filter (fun o => groupKey o == k)) ∧
    (∀ (first : OrderData) (rest : List OrderData) (minP maxP totQ : ℚ),
      priceStatsGo (first :: rest) = (minP, maxP, totQ) →
      (rest = [] → renderGroup (first :: rest) =
        some (.single first.Symbol (if first.ReduceOnly then "Reduce " else "")
          first.Side first.OrderType (getDisplayPrice first) totQ)) ∧
      (rest ≠ [] → minP = maxP → renderGroup (first :: rest) =
        some (.uniform (rest.length + 1) (if first.ReduceOnly then "Reduce " else "")
          first.Side first.OrderType first.Symbol (getDisplayPrice first) totQ)) ∧
      (rest ≠ [] → minP ≠ maxP → renderGroup (first :: rest) =
        some (.priceRange (rest.length + 1) (if first.ReduceOnly then "Reduce " else "")
          first.Side first.OrderType first.Symbol minP maxP totQ))) ∧
    processOrderBuffer [exOrder "100" "1", exOrder "100" "2"] =
      [.uniform 2 "" "Buy" "Limit" "BTCUSD" "100" 3] ∧
    processOrderBuffer [exOrder "100" "1", exOrder "110" "2"] =
      [.priceRange 2 "" "Buy" "Limit" "BTCUSD" 100 110 3] := by
  refine ⟨?_, ?_, ?_, ?_, ?_, ?_⟩
  · intro o
    constructor
    · intro h
      unfold getDisplayPrice
      rcases h with ⟨hM, h1, h2⟩ | ⟨hL, hF, h1, h2⟩
      · rw [if_pos ⟨hM, h1, h2⟩]
      · rw [if_neg, if_pos ⟨hL, h1, h2, hF⟩]
        rintro ⟨hM, -, -⟩
        rw [hL] at hM
        exact absurd hM (by decide)
    · intro h
      unfold getDisplayPrice
      rw [if_neg (fun hc => h (Or.inl hc)),
        if_neg (fun hc => h (Or.inr ⟨hc.1, hc.2.2.2, hc.2.1, hc.2.2.1⟩))]
  · intro o o2 h1 h2 h3 h4
    unfold groupKey
    rw [h1, h2, h3, h4]
  · intro orders k g hmem
    unfold groupOrders at hmem
    rw [List.mem_map] at hmem
    obtain ⟨k2, hk2, heq⟩ := hmem
    rw [Prod.mk.injEq] at heq
    obtain ⟨hk, hg⟩ := heq
    subst hk
    exact hg.symm
  · intro first rest minP maxP totQ hstats
    refine ⟨?_, ?_, ?_⟩
    · intro hrest
      subst hrest
      simp only [renderGroup]
      rw [hstats]
      simp
    · intro hne hpm
      simp only [renderGroup]
      rw [hstats]
      simp [hne, hpm]
    · intro hne hpm
      simp only [renderGroup]
      rw [hstats]
      simp [hne, hpm]
  · have hg : groupOrders [exOrder "100" "1", exOrder "100" "2"] =
        [("BTCUSD__Buy_Limit", [exOrder "100" "1", exOrder "100" "2"])] := by decide
    unfold processOrderBuffer
    rw [hg, List.filterMap_cons, renderGroup_uniform_ex]
    rfl
  · have hg : groupOrders [exOrder "100" "1", exOrder "110" "2"] =
        [("BTCUSD__Buy_Limit", [exOrder "100" "1", exOrder "110" "2"])] := by decide
    unfold processOrderBuffer
    rw [hg, List.filterMap_cons, renderGroup_range_ex]
    rfl

/-- Witness for C7: a filled Limit order with a non-zero average displays
the average. -/
theorem C7_order_flush_witness :
    getDisplayPrice { OrderType := "Limit", OrderStatus := "Filled",
                      AvgPrice := "9", Price := "8" } = "9" :=
  (C7_order_flush.1 { OrderType := "Limit", OrderStatus := "Filled",
                      AvgPrice := "9", Price := "8" }).1
    (Or.inr ⟨rfl, Or.inl rfl, by decide, by decide⟩)

/-- C1: for whitespace-free credentials (the code first trims both), the
authentication request is exactly
`{"req_id": uuid, "op": "auth", "args": [key, expiry, signature]}` with the
expiry a number equal to now + 10000 ms and the signature the lowercase hex
HMAC-SHA256, keyed by the secret, of `GET/realtime` followed by the decimal
expiry; and the signature computation reproduces an externally precomputed
reference HMAC-SHA256 digest for a fixed key/secret/expiry triple. -/
theorem C1_auth_request (k s : String) (nowMs : Int) (reqId : String)
    (hk : trimSpaceGo k = k) (hs : trimSpaceGo s = s) :
    authMessage k s nowMs reqId =
      { req_id := reqId, op := "auth",
        args := [.jstr k, .jnum (nowMs + 10000),
                 .jstr (hmacSha256Hex s ("GET/realtime" ++ toString (nowMs + 10000)))] } ∧
    hmacSha256Hex "testsecret" "GET/realtime1700000010000" =
      "6a806639d27b1c24c3808a191e9d0274d0c9d3a04a160233856d65840dfda2c8" := by
  constructor
  · simp only [authMessage]
    rw [hk, hs]
  · decide

/-- Witness for C1 at concrete credentials, clock and request id. -/
theorem C1_auth_request_witness :
    authMessage "APIKEY" "testsecret" 1700000000000 "req-1" =
      { req_id := "req-1", op := "auth",
        args := [.jstr "APIKEY", .jnum (1700000000000 + 10000),
                 .jstr (hmacSha256Hex "testsecret"
                   ("GET/realtime" ++ toString ((1700000000000 : Int) + 10000)))] } ∧
      hmacSha256Hex "testsecret" "GET/realtime1700000010000" =
        "6a806639d27b1c24c3808a191e9d0274d0c9d3a04a160233856d65840dfda2c8" :=
  C1_auth_request "APIKEY" "testsecret" 1700000000000 "req-1" rfl rfl

end BybitNotif
